import Mathlib

/-!
Verification of the Arena real-time WebSocket layer
(`src/backend/realtime/consumers.py` and `src/backend/realtime/middleware.py`).

The development shallowly embeds the two modules:

* a small universe of Python/JSON values (`PyVal0`, `PyVal1`, `PyVal2`) stratified
  by nesting depth — dictionaries at each level keep insertion order, mirroring
  the literals the source constructs;
* the token-bucket rate limiter (the `RateLimiter` class is imported from the
  external `ratelimit` module, whose code is not in this repository; it is
  modelled from the spec);
* the message layer of `ArenaConsumer` (`validate_message`, `receive_json`,
  `handle_proposal_update`, `handle_request_update`, `handle_ping`,
  `handle_error`, `connect`);
* the connection registry of `WebSocketMiddleware` (`process_request`,
  `process_disconnect`, `get_user_connections`), with Python dicts embedded as
  functions `String → Option _`.
-/

namespace ArenaRealtime

/-! ## Python value universe -/

/-- Depth-0 Python values: the scalars appearing in WebSocket frames. -/
inductive PyVal0 where
  | pstr (s : String)
  | pnum (n : ℚ)
  | pnone
deriving DecidableEq, Repr

/-- A depth-0 dictionary: string keys to scalar values, in insertion order. -/
abbrev Dict0 := List (String × PyVal0)

/-- Depth-1 Python values: a scalar or a depth-0 dictionary. -/
inductive PyVal1 where
  | prim (v : PyVal0)
  | dict (d : Dict0)
deriving DecidableEq, Repr

/-- A depth-1 dictionary. -/
abbrev Dict1 := List (String × PyVal1)

/-- Depth-2 Python values: inbound frame contents as handed to `receive_json`. -/
inductive PyVal2 where
  | prim (v : PyVal0)
  | dict (d : Dict1)
deriving DecidableEq, Repr

/-- First-match lookup in a depth-0 dictionary (`d.get(k)`). -/
def dictGet0 (d : Dict0) (k : String) : Option PyVal0 :=
  match d with
  | [] => none
  | (k', v) :: rest => if k' = k then some v else dictGet0 rest k

/-- First-match lookup in a depth-1 dictionary (`d.get(k)`). -/
def dictGet1 (d : Dict1) (k : String) : Option PyVal1 :=
  match d with
  | [] => none
  | (k', v) :: rest => if k' = k then some v else dictGet1 rest k

/-- Python truthiness of a scalar (`if not x`). -/
def truthy0 : PyVal0 → Bool
  | .pstr s => s ≠ ""
  | .pnum n => n ≠ 0
  | .pnone => false

/-- Python `str()` of a scalar, as used by `"...".format(x)` and f-strings. -/
def fmt0 : PyVal0 → String
  | .pstr s => s
  | .pnum n => if n.den = 1 then toString n.num else toString n.num ++ "/" ++ toString n.den
  | .pnone => "None"

/-- Python `str()` of a depth-1 value; only scalars are ever formatted by the code. -/
def fmt1 : PyVal1 → String
  | .prim v => fmt0 v
  | .dict _ => "dict"

/-- The depth-1 dictionary under a frame content, if the content is a dict. -/
def PyVal2.asDict : PyVal2 → Option Dict1
  | .prim _ => none
  | .dict d => some d

/-! ## Rate limiter -/

/-- Modelled from the spec: the `RateLimiter` class is imported from the external
`ratelimit` module, whose implementation is not among this repository's sources.
The spec defines it as a token bucket `tokens = min(capacity, tokens +
elapsed_seconds * refill_rate)` with one token consumed per inbound message when
available; `MESSAGE_RATE_LIMIT = "60/minute"` yields capacity 60 and refill rate
1 token per second. -/
structure RateBucket where
  tokens : ℚ
  lastRefill : ℚ
deriving DecidableEq, Repr

/-- Bucket capacity for `MESSAGE_RATE_LIMIT = "60/minute"`. -/
def RATE_CAPACITY : ℚ := 60

/-- Refill rate in tokens per second for `MESSAGE_RATE_LIMIT = "60/minute"`. -/
def RATE_REFILL : ℚ := 1

/-- Modelled from the spec: lazy refill computed on each check. -/
def RateBucket.refill (b : RateBucket) (now : ℚ) : RateBucket :=
  ⟨min RATE_CAPACITY (b.tokens + (now - b.lastRefill) * RATE_REFILL), now⟩

/-- Modelled from the spec: `allow()` refills lazily, then consumes one token if
at least one is available, else rejects. -/
def RateBucket.allow (b : RateBucket) (now : ℚ) : Bool × RateBucket :=
  let r := b.refill now
  if 1 ≤ r.tokens then (true, ⟨r.tokens - 1, r.lastRefill⟩) else (false, r)

/-! ## ArenaConsumer message layer (`consumers.py`) -/

/-- Per-connection state read and written by `receive_json`: the rate-limiter
bucket, `connection_metadata["user_id"]`, and `scope.get("connect_time", 0)`. -/
structure MsgState where
  bucket : RateBucket
  userId : String
  connectTime : ℚ
deriving DecidableEq, Repr

/-- Effects of handling one message: `send_json` to this connection, or
`channel_layer.group_send` to a group. -/
inductive Outbound where
  | sendJson (frame : Dict1)
  | groupSend (group : String) (event : Dict1)
deriving DecidableEq, Repr

/-- Frame sent by `handle_error`. -/
def errorFrame (errorType errorMessage : String) : Dict1 :=
  [(("type"), .prim (.pstr ("error"))),
   (("error"), .prim (.pstr errorType)),
   (("message"), .prim (.pstr errorMessage))]

/-- Frame sent by `handle_ping`: the timestamp field is
`self.scope.get("connect_time", 0)`, the connection's connect time. -/
def pongFrame (connectTime : ℚ) : Dict1 :=
  [(("type"), .prim (.pstr ("pong"))),
   (("timestamp"), .prim (.pnum connectTime))]

/-- Acknowledgment frame sent at the end of `receive_json`. -/
def ackFrame (messageId : PyVal1) : Dict1 :=
  [(("type"), .prim (.pstr ("ack"))),
   (("message_id"), messageId),
   (("status"), .prim (.pstr ("success")))]

/-- The `valid_types` list of the `validate_message` decorator. -/
def valid_types : List PyVal1 :=
  [.prim (.pstr ("proposal_update")), .prim (.pstr ("request_update")),
   .prim (.pstr ("ping"))]

/-- Checks of the `validate_message` decorator, in source order: the content must
be a dict, must contain the keys `type` and `data`, and its `type` must be one of
`valid_types`; returns the `str(e)` of the `ValueError` raised otherwise. -/
def validationFailure (content : PyVal2) : Option String :=
  match content with
  | .prim _ => some ("Invalid message format")
  | .dict d =>
    match dictGet1 d ("type"), dictGet1 d ("data") with
    | some t, some _ =>
      if t ∈ valid_types then none
      else some ("Invalid message type: " ++ fmt1 t)
    | _, _ => some ("Missing required fields")

/-- Downstream proposal service calls awaited by `handle_proposal_update`;
a raised exception is modelled as `Except.error` with its `str(e)`. -/
structure ProposalService where
  accept_proposal : PyVal0 → Except String Unit
  reject_proposal : PyVal0 → Except String Unit

/-- Event dict built by `handle_proposal_update` for `group_send`. -/
def proposalEvent (pid act : PyVal0) (uid : String) : Dict1 :=
  [(("type"), .prim (.pstr ("proposal.updated"))),
   (("proposal_id"), .prim pid),
   (("action"), .prim act),
   (("user_id"), .prim (.pstr uid))]

/-- Event dict built by `handle_request_update` for `group_send`; it embeds the
whole inbound `data` dict. -/
def requestEvent (rid : PyVal0) (d : Dict0) (uid : String) : Dict1 :=
  [(("type"), .prim (.pstr ("request.updated"))),
   (("request_id"), .prim rid),
   (("data"), .dict d),
   (("user_id"), .prim (.pstr uid))]

/-- Body of `handle_proposal_update`: `.get` on a non-dict raises
`AttributeError`, caught by the handler's own `except` into `handle_error`;
falsy `proposal_id`/`action` raise `ValueError`; the service call may raise; on
success the update is broadcast to `PROPOSAL_GROUP.format(proposal_id)`. -/
def handle_proposal_update (svc : ProposalService) (uid : String)
    (dataV : PyVal1) : List Outbound :=
  match dataV with
  | .prim _ =>
    [.sendJson (errorFrame ("proposal_update_error")
      ("AttributeError: object has no attribute get"))]
  | .dict d =>
    let pid := (dictGet0 d ("proposal_id")).getD .pnone
    let act := (dictGet0 d ("action")).getD .pnone
    if truthy0 pid = false ∨ truthy0 act = false then
      [.sendJson (errorFrame ("proposal_update_error")
        ("Missing required proposal data"))]
    else if act = .pstr ("accept") then
      match svc.accept_proposal pid with
      | .ok _ => [.groupSend ("proposal_updates_" ++ fmt0 pid) (proposalEvent pid act uid)]
      | .error e => [.sendJson (errorFrame ("proposal_update_error") e)]
    else if act = .pstr ("reject") then
      match svc.reject_proposal pid with
      | .ok _ => [.groupSend ("proposal_updates_" ++ fmt0 pid) (proposalEvent pid act uid)]
      | .error e => [.sendJson (errorFrame ("proposal_update_error") e)]
    else
      [.sendJson (errorFrame ("proposal_update_error")
        ("Invalid proposal action: " ++ fmt0 act))]

/-- Body of `handle_request_update`: falsy `request_id` raises `ValueError`
caught into `handle_error`; otherwise the update is broadcast to
`REQUEST_GROUP.format(request_id)`. -/
def handle_request_update (uid : String) (dataV : PyVal1) : List Outbound :=
  match dataV with
  | .prim _ =>
    [.sendJson (errorFrame ("request_update_error")
      ("AttributeError: object has no attribute get"))]
  | .dict d =>
    let rid := (dictGet0 d ("request_id")).getD .pnone
    if truthy0 rid = false then
      [.sendJson (errorFrame ("request_update_error") ("Missing request ID"))]
    else
      [.groupSend ("request_updates_" ++ fmt0 rid) (requestEvent rid d uid)]

/-- Dispatch on `message_type` inside `receive_json` (the `if`/`elif` chain);
an unrecognized type falls through with no handler output. -/
def dispatchMessage (svc : ProposalService) (uid : String) (connectTime : ℚ)
    (t : PyVal1) (dataV : PyVal1) : List Outbound :=
  if t = .prim (.pstr ("proposal_update")) then handle_proposal_update svc uid dataV
  else if t = .prim (.pstr ("request_update")) then handle_request_update uid dataV
  else if t = .prim (.pstr ("ping")) then [.sendJson (pongFrame connectTime)]
  else []

/-- The rate-limit error frame sent by `receive_json` when `allow()` rejects. -/
def rateLimitErrorOut : Outbound :=
  .sendJson (errorFrame ("rate_limit_exceeded") ("Message rate limit exceeded"))

/-- `receive_json` under the `validate_message` decorator: validation failure
sends a structured error and touches nothing; otherwise the rate limiter is
checked (consuming a token when available), the message is dispatched by type,
and an `ack` echoing `content.get("message_id")` is sent unconditionally. -/
def receive_json (svc : ProposalService) (st : MsgState) (now : ℚ)
    (content : PyVal2) : MsgState × List Outbound :=
  match validationFailure content with
  | some msg => (st, [.sendJson (errorFrame ("message_validation_error") msg)])
  | none =>
    let p := st.bucket.allow now
    if p.1 = false then
      ({ st with bucket := p.2 }, [rateLimitErrorOut])
    else
      let d := content.asDict.getD []
      let t := (dictGet1 d ("type")).getD (.prim .pnone)
      let dataV := (dictGet1 d ("data")).getD (.dict [])
      ({ st with bucket := p.2 },
       dispatchMessage svc st.userId st.connectTime t dataV
         ++ [.sendJson (ackFrame ((dictGet1 d ("message_id")).getD (.prim .pnone)))])

/-- Receive loop: a connection's inbound messages are processed strictly in
receipt order; each element pairs the receipt time with the frame content. -/
def runMessages (svc : ProposalService) (st : MsgState)
    (msgs : List (ℚ × PyVal2)) : MsgState × List (List Outbound) :=
  match msgs with
  | [] => (st, [])
  | (t, c) :: rest =>
    let p := receive_json svc st t c
    let q := runMessages svc p.1 rest
    (q.1, p.2 :: q.2)

/-! ## WebSocketMiddleware connection registry (`middleware.py`) -/

/-- Authenticated-user data read from the ASGI scope. -/
structure UserInfo where
  id : String
  is_authenticated : Bool
  isBuyer : Bool
deriving DecidableEq, Repr

/-- The parts of the ASGI scope the middleware and consumer read. -/
structure Scope where
  subprotocols : List String
  user : Option UserInfo
  client : String
  userAgent : String
deriving DecidableEq, Repr

/-- Metadata recorded per connection by `process_request`. -/
structure ConnMeta where
  userId : String
  correlationId : String
  connectedAt : ℚ
  client : String
  userAgent : String
deriving DecidableEq, Repr

/-- `MAX_CONNECTIONS_PER_USER` of `middleware.py` (the registry's own cap). -/
def MAX_CONNECTIONS_PER_USER : ℕ := 10

/-- `CONNECTION_TIMEOUT_SECONDS` of `middleware.py`. -/
def CONNECTION_TIMEOUT_SECONDS : ℚ := 3600

/-- The middleware's three tracking dicts, embedded as partial maps:
`active_connections`, `user_connections`, and `connection_metadata`. -/
structure RegistryState where
  active : String → Option ConnMeta
  userConns : String → Option (List String)
  metaTable : String → Option ConnMeta

/-- Registry of a freshly initialized middleware: three empty dicts. -/
def initState : RegistryState :=
  { active := fun _ => none, userConns := fun _ => none, metaTable := fun _ => none }

/-- `process_request`: rejects on unsupported subprotocol, missing or
unauthenticated user, or a user already holding `MAX_CONNECTIONS_PER_USER`
connections; otherwise records the connection in all three dicts. The generated
`uuid4` connection id and the correlation id are passed as parameters. -/
def process_request (scope : Scope) (connId corrId : String) (now : ℚ)
    (st : RegistryState) : Bool × RegistryState :=
  if scope.subprotocols ≠ [] ∧ ("arena-v1") ∉ scope.subprotocols then (false, st)
  else
    match scope.user with
    | none => (false, st)
    | some u =>
      if u.is_authenticated = false then (false, st)
      else
        let userId := u.id
        let atLimit :=
          match st.userConns userId with
          | some l => decide (MAX_CONNECTIONS_PER_USER ≤ l.length)
          | none => false
        if atLimit then (false, st)
        else
          let meta : ConnMeta :=
            ⟨userId, corrId, now, scope.client, scope.userAgent⟩
          (true,
           { active := fun c => if c = connId then some meta else st.active c,
             userConns := fun v =>
               if v = userId then some ((st.userConns userId).getD [] ++ [connId])
               else st.userConns v,
             metaTable := fun c => if c = connId then some meta else st.metaTable c })

/-- `process_disconnect`: a falsy or unregistered id returns immediately with no
mutation. Otherwise the id is removed from its user's list (deleting the list
when it empties) and deleted from `active_connections` and
`connection_metadata`. The `Option ℚ` result is the session duration the
function computes and logs (the Python function itself returns `None`); in the
branch where `list.remove` would raise `ValueError` (the id missing from its
user's list, unreachable from reachable states) the `except` block swallows the
exception before any mutation, so nothing changes and nothing is logged. -/
def process_disconnect (connId : String) (now : ℚ) (st : RegistryState) :
    RegistryState × Option ℚ :=
  if connId = "" then (st, none)
  else
    match st.active connId with
    | none => (st, none)
    | some meta =>
      let userId := meta.userId
      let duration := now - meta.connectedAt
      match st.userConns userId with
      | some l =>
        if connId ∈ l then
          let l' := l.erase connId
          ({ active := fun c => if c = connId then none else st.active c,
             userConns := fun v =>
               if v = userId then (if l' = [] then none else some l')
               else st.userConns v,
             metaTable := fun c => if c = connId then none else st.metaTable c },
           some duration)
        else (st, none)
      | none =>
        ({ active := fun c => if c = connId then none else st.active c,
           userConns := st.userConns,
           metaTable := fun c => if c = connId then none else st.metaTable c },
         some duration)

/-- Connection info dict returned per live connection by
`get_user_connections`. -/
structure ConnInfo where
  connection_id : String
  connected_at : ℚ
  client : String
  user_agent : String
  correlation_id : String
deriving DecidableEq, Repr

/-- `get_user_connections` is a synchronous method; in its expired branch it
calls the async `process_disconnect` without `await`, so Python only creates a
coroutine object and drops it — the removal never executes and the registry is
not mutated. The first component is the returned list of live-connection dicts;
the second records the connection ids whose removal coroutine was created and
dropped (the expired ids, which stay registered). -/
def get_user_connections (st : RegistryState) (userId : String)
    (currentTime : ℚ) : List ConnInfo × List String :=
  match st.userConns userId with
  | none => ([], [])
  | some ids =>
    ids.foldl
      (fun acc cid =>
        match st.metaTable cid with
        | none => acc
        | some m =>
          if CONNECTION_TIMEOUT_SECONDS < currentTime - m.connectedAt then
            (acc.1, acc.2 ++ [cid])
          else
            (acc.1 ++ [⟨cid, m.connectedAt, m.client, m.userAgent, m.correlationId⟩],
             acc.2))
      ([], [])

/-! ## ArenaConsumer.connect (`consumers.py`) -/

/-- `MAX_CONNECTIONS_PER_USER` of `consumers.py` (a distinct constant, 5). -/
def CONSUMER_MAX_CONNECTIONS_PER_USER : ℕ := 5

/-- Result of the consumer's `connect`: a `close(code)` or an accepted
connection together with the groups joined. -/
inductive ConnectOutcome where
  | close (code : ℕ)
  | accepted (groups : List String)
deriving DecidableEq, Repr

/-- Line 108 of `consumers.py` reads
`WebSocketMiddleware.get_user_connections(user_id)`: the instance method is
accessed on the class, so the single argument binds to `self` and Python raises
`TypeError: get_user_connections() missing 1 required positional argument`.
The call is embedded as that raised exception. -/
def get_user_connections_classCall (userId : String) :
    Except String (List ConnInfo) :=
  .error ("TypeError: get_user_connections() missing 1 required positional argument: user_id " ++ userId)

/-- `ArenaConsumer.connect`: closes 4001 for a missing or unauthenticated user;
then calls `get_user_connections` on the class (which raises, landing in the
`except` that closes 4000); the `>= MAX_CONNECTIONS_PER_USER` check closing 4002
and the accept path are therefore unreachable for every input. -/
def ArenaConsumer.connect (scope : Scope) : ConnectOutcome :=
  match scope.user with
  | none => .close 4001
  | some u =>
    if u.is_authenticated = false then .close 4001
    else
      match get_user_connections_classCall u.id with
      | .error _ => .close 4000
      | .ok conns =>
        if CONSUMER_MAX_CONNECTIONS_PER_USER ≤ conns.length then .close 4002
        else
          .accepted (if u.isBuyer then [("request_updates_") ++ u.id] else [])

/-! ## Channel layer groups -/

/-- Modelled from the spec: the channel layer's group membership table is owned
by the external `channels` library (not in this repository's sources). Per the
spec, `subscribe` is idempotent set-insertion and groups are sets of connection
channels. Membership lists are kept duplicate-free. -/
def ChannelLayer := String → List String

/-- Modelled from the spec: idempotent `group_add` — the channel is appended
only if not already a member. -/
def group_add (layer : ChannelLayer) (g ch : String) : ChannelLayer :=
  fun g' =>
    if g' = g then (if ch ∈ layer g then layer g else layer g ++ [ch])
    else layer g'

/-- Modelled from the spec: `group_discard` removes the channel's membership;
on a group it never joined it is a no-op. -/
def group_discard (layer : ChannelLayer) (g ch : String) : ChannelLayer :=
  fun g' => if g' = g then (layer g).erase ch else layer g'

/-- `ArenaConsumer.disconnect`: discards the channel from every group in
`self.groups`, then clears `self.groups`. -/
def ArenaConsumer.disconnect (groups : List String) (ch : String)
    (layer : ChannelLayer) : List String × ChannelLayer :=
  ([], groups.foldl (fun ly g => group_discard ly g ch) layer)

/-- Modelled from the spec: `publish(group, event)` — the bus delivers the
message back to every locally subscribed channel, including the publisher's own
process; each local delivery carries the payload unmodified. -/
def deliverGroupSend (layer : ChannelLayer) (g : String) (event : Dict1) :
    List (String × Dict1) :=
  (layer g).map (fun ch => (ch, event))

/-! ## Reachable registry states -/

/-- Registry states reachable from a fresh middleware by any interleaving of
admissions and removals. `process_request` runs with no intervening `await`, so
each call is atomic on the event loop; racing admits interleave at call
granularity. The `uuid4` connection id of an admission is assumed fresh (not a
currently registered id). -/
inductive Reachable : RegistryState → Prop where
  | init : Reachable initState
  | register (st : RegistryState) (scope : Scope) (connId corrId : String) (now : ℚ)
      (h : Reachable st) (hfresh : st.active connId = none) :
      Reachable (process_request scope connId corrId now st).2
  | remove (st : RegistryState) (connId : String) (now : ℚ)
      (h : Reachable st) :
      Reachable (process_disconnect connId now st).1

/-- Registry invariant: each user's list is capped, duplicate-free, nonempty,
and contains only ids registered to that user; each registered id appears in its
owner's list; `connection_metadata` mirrors `active_connections`. -/
structure RegistryInv (st : RegistryState) : Prop where
  cap : ∀ u l, st.userConns u = some l →
    l.length ≤ MAX_CONNECTIONS_PER_USER ∧ l.Nodup ∧ l ≠ [] ∧
    ∀ cid ∈ l, ∃ m, st.active cid = some m ∧ m.userId = u
  owner : ∀ cid m, st.active cid = some m →
    ∃ l, st.userConns m.userId = some l ∧ cid ∈ l
  meta : ∀ cid, st.metaTable cid = st.active cid

lemma inv_init : RegistryInv initState := by
  refine ⟨?_, ?_, ?_⟩
  · intro u l h
    simp [initState] at h
  · intro cid m h
    simp [initState] at h
  · intro cid
    rfl

lemma inv_register (scope : Scope) (connId corrId : String) (now : ℚ)
    (st : RegistryState) (hinv : RegistryInv st)
    (hfresh : st.active connId = none) :
    RegistryInv (process_request scope connId corrId now st).2 := by
  by_cases h1 : scope.subprotocols ≠ [] ∧ ("arena-v1") ∉ scope.subprotocols
  · simpa [process_request, h1] using hinv
  · cases hu : scope.user with
    | none => simpa [process_request, h1, hu] using hinv
    | some u =>
      by_cases h2 : u.is_authenticated = false
      · simpa [process_request, h1, hu, h2] using hinv
      · have hfreshMem : ∀ v lv, st.userConns v = some lv → connId ∉ lv := by
          intro v lv hv hmem
          obtain ⟨m, hm, _⟩ := (hinv.cap v lv hv).2.2.2 connId hmem
          rw [hfresh] at hm
          exact Option.noConfusion hm
        have hgoal : ∀ base : List String,
            st.userConns u.id = (if base = [] then none else some base) →
            base.length < MAX_CONNECTIONS_PER_USER →
            base.Nodup →
            (∀ cid ∈ base, ∃ m, st.active cid = some m ∧ m.userId = u.id) →
            RegistryInv
              { active := fun c => if c = connId then
                  some ⟨u.id, corrId, now, scope.client, scope.userAgent⟩
                  else st.active c,
                userConns := fun v =>
                  if v = u.id then some ((st.userConns u.id).getD [] ++ [connId])
                  else st.userConns v,
                metaTable := fun c => if c = connId then
                  some ⟨u.id, corrId, now, scope.client, scope.userAgent⟩
                  else st.metaTable c } := by
          intro base hbase hblen hbnd hbmem
          have hgetD : (st.userConns u.id).getD [] = base := by
            by_cases hb0 : base = [] <;> simp [hbase, hb0]
          refine ⟨?_, ?_, ?_⟩
          · intro v lv hv
            dsimp only at hv ⊢
            by_cases hveq : v = u.id
            · subst hveq
              rw [if_pos rfl, hgetD] at hv
              obtain rfl : base ++ [connId] = lv := Option.some_inj.mp hv
              refine ⟨?_, ?_, ?_, ?_⟩
              · simpa using Nat.succ_le_of_lt hblen
              · rw [List.nodup_append]
                refine ⟨hbnd, List.nodup_singleton _, ?_⟩
                intro a ha hamem
                simp only [List.mem_singleton] at hamem
                subst hamem
                obtain ⟨m, hm, _⟩ := hbmem a ha
                rw [hfresh] at hm
                exact Option.noConfusion hm
              · simp
              · intro cid hcid
                rcases List.mem_append.mp hcid with hin | hin
                · obtain ⟨m, hm, hmu⟩ := hbmem cid hin
                  have hne : cid ≠ connId := by
                    intro hEq; rw [hEq, hfresh] at hm; exact Option.noConfusion hm
                  exact ⟨m, by simp [hne, hm], hmu⟩
                · simp only [List.mem_singleton] at hin
                  subst hin
                  exact ⟨⟨u.id, corrId, now, scope.client, scope.userAgent⟩, by simp, rfl⟩
            · simp only [if_neg hveq] at hv
              obtain ⟨hlen, hnd, hne, hmem⟩ := hinv.cap v lv hv
              refine ⟨hlen, hnd, hne, ?_⟩
              intro cid hcid
              obtain ⟨m, hm, hmu⟩ := hmem cid hcid
              have hne' : cid ≠ connId := by
                intro hEq; rw [hEq, hfresh] at hm; exact Option.noConfusion hm
              exact ⟨m, by simp [hne', hm], hmu⟩
          · intro cid m hm
            dsimp only at hm ⊢
            by_cases hceq : cid = connId
            · subst hceq
              rw [if_pos rfl] at hm
              obtain rfl := Option.some_inj.mp hm
              exact ⟨base ++ [cid], by simp [hgetD], by simp⟩
            · simp only [if_neg hceq] at hm
              obtain ⟨l, hl, hcl⟩ := hinv.owner cid m hm
              by_cases hmu : m.userId = u.id
              · refine ⟨(st.userConns u.id).getD [] ++ [connId], by simp [hmu], ?_⟩
                rw [hmu] at hl
                rw [hgetD]
                have : l = base := by
                  by_cases hb0 : base = []
                  · rw [hb0] at hbase; rw [hbase] at hl; exact Option.noConfusion hl
                  · rw [if_neg hb0] at hbase; rw [hbase] at hl
                    exact (Option.some_inj.mp hl).symm
                exact List.mem_append.mpr (Or.inl (this ▸ hcl))
              · exact ⟨l, by simp [hmu, hl], hcl⟩
          · intro cid
            dsimp only
            by_cases hceq : cid = connId
            · simp [hceq]
            · simp [hceq, hinv.meta cid]
        cases hb : st.userConns u.id with
        | some l₀ =>
          by_cases h3 : MAX_CONNECTIONS_PER_USER ≤ l₀.length
          · simpa [process_request, h1, hu, h2, hb, h3] using hinv
          · have hne0 : l₀ ≠ [] := (hinv.cap u.id l₀ hb).2.2.1
            have := hgoal l₀ (by simp [hb, hne0]) (Nat.lt_of_not_le h3)
              (hinv.cap u.id l₀ hb).2.1 (hinv.cap u.id l₀ hb).2.2.2
            simpa [process_request, h1, hu, h2, hb, h3] using this
        | none =>
          have := hgoal [] (by simp [hb]) (by simp [MAX_CONNECTIONS_PER_USER])
            (List.nodup_nil) (by simp)
          simpa [process_request, h1, hu, h2, hb] using this

lemma inv_remove (connId : String) (now : ℚ) (st : RegistryState)
    (hinv : RegistryInv st) :
    RegistryInv (process_disconnect connId now st).1 := by
  by_cases h0 : connId = ""
  · simpa [process_disconnect, h0] using hinv
  · cases ha : st.active connId with
    | none => simpa [process_disconnect, h0, ha] using hinv
    | some meta =>
      obtain ⟨l, hl, hmem⟩ := hinv.owner connId meta ha
      have hnd : l.Nodup := (hinv.cap meta.userId l hl).2.1
      have hred :
          (process_disconnect connId now st).1 =
          { active := fun c => if c = connId then none else st.active c,
            userConns := fun v =>
              if v = meta.userId then
                (if l.erase connId = [] then none else some (l.erase connId))
              else st.userConns v,
            metaTable := fun c => if c = connId then none else st.metaTable c } := by
        simp [process_disconnect, h0, ha, hl, hmem]
      rw [hred]
      refine ⟨?_, ?_, ?_⟩
      · intro v lv hv
        dsimp only at hv ⊢
        by_cases hveq : v = meta.userId
        · subst hveq
          rw [if_pos rfl] at hv
          by_cases hemp : l.erase connId = []
          · rw [if_pos hemp] at hv
            exact Option.noConfusion hv
          · rw [if_neg hemp] at hv
            obtain rfl := Option.some_inj.mp hv
            obtain ⟨hlen, _hnd', _hne', hmem'⟩ := hinv.cap meta.userId l hl
            refine ⟨?_, hnd.erase connId, hemp, ?_⟩
            · exact le_trans (List.Sublist.length_le (List.erase_sublist connId l)) hlen
            · intro cid hcid
              have hcid' := (List.Nodup.mem_erase_iff hnd).mp hcid
              obtain ⟨m, hm, hmu⟩ := hmem' cid hcid'.2
              exact ⟨m, by simp [hcid'.1, hm], hmu⟩
        · rw [if_neg hveq] at hv
          obtain ⟨hlen, hnd', hne', hmem'⟩ := hinv.cap v lv hv
          refine ⟨hlen, hnd', hne', ?_⟩
          intro cid hcid
          obtain ⟨m, hm, hmu⟩ := hmem' cid hcid
          have hne'' : cid ≠ connId := by
            intro hEq
            rw [hEq, ha] at hm
            obtain rfl := Option.some_inj.mp hm
            exact absurd hmu.symm hveq
          exact ⟨m, by simp [hne'', hm], hmu⟩
      · intro cid m hm
        dsimp only at hm ⊢
        by_cases hceq : cid = connId
        · rw [if_pos hceq] at hm
          exact Option.noConfusion hm
        · rw [if_neg hceq] at hm
          obtain ⟨lc, hlc, hclc⟩ := hinv.owner cid m hm
          by_cases hmu : m.userId = meta.userId
          · rw [hmu] at hlc
            obtain rfl : l = lc := Option.some_inj.mp (hl.symm.trans hlc)
            have hcin : cid ∈ l.erase connId :=
              (List.Nodup.mem_erase_iff hnd).mpr ⟨hceq, hclc⟩
            have hemp : ¬(l.erase connId = []) := by
              intro hEq
              rw [hEq] at hcin
              exact List.not_mem_nil cid hcin
            exact ⟨l.erase connId, by simp [hmu, hemp], hcin⟩
          · exact ⟨lc, by simp [hmu, hlc], hclc⟩
      · intro cid
        dsimp only
        by_cases hceq : cid = connId
        · simp [hceq]
        · simp [hceq, hinv.meta cid]

lemma reachable_inv {st : RegistryState} (h : Reachable st) : RegistryInv st := by
  induction h with
  | init => exact inv_init
  | register st scope connId corrId now _ hfresh ih =>
    exact inv_register scope connId corrId now st ih hfresh
  | remove st connId now _ ih =>
    exact inv_remove connId now st ih

/-- C1: for every user and every registry state reachable by any interleaving of
admissions (`process_request`, which runs with no suspension point and is thus
atomic on the event loop even under racing admits) and removals
(`process_disconnect`), the user's number of registered connections never
exceeds `MAX_CONNECTIONS_PER_USER`, and every connection id in the per-user
index is present in `active_connections`. -/
theorem c1_registry_cap (st : RegistryState) (h : Reachable st) (u : String) :
    ((st.userConns u).getD []).length ≤ MAX_CONNECTIONS_PER_USER ∧
    ∀ cid ∈ (st.userConns u).getD [], (st.active cid).isSome = true := by
  have hinv := reachable_inv h
  cases hb : st.userConns u with
  | none => simp
  | some l =>
    obtain ⟨hlen, _, _, hm⟩ := hinv.cap u l hb
    refine ⟨by simpa using hlen, ?_⟩
    intro cid hc
    obtain ⟨m, hm', _⟩ := hm cid (by simpa using hc)
    simp [hm']

/-- Example scope: authenticated non-buyer user u1. -/
def scopeU1 : Scope :=
  { subprotocols := [],
    user := some { id := ("u1"), is_authenticated := true, isBuyer := false },
    client := ("127.0.0.1"),
    userAgent := ("agent") }

/-- Registry after admitting one connection c1 of user u1 at time 0. -/
def stOne : RegistryState :=
  (process_request scopeU1 ("c1") ("corr1") 0 initState).2

theorem c1_registry_cap_witness :
    ((stOne.userConns ("u1")).getD []).length ≤ MAX_CONNECTIONS_PER_USER :=
  (c1_registry_cap stOne
    (Reachable.register initState scopeU1 ("c1") ("corr1") 0 Reachable.init rfl)
    ("u1")).1

/-- C7: `process_disconnect` on an id that is not registered returns without
error and leaves all three tracking dicts unchanged; and removing the same id
twice leaves the same registry as removing it once. -/
theorem c7_remove_idempotent :
    (∀ (st : RegistryState) (connId : String) (now : ℚ),
        st.active connId = none →
        process_disconnect connId now st = (st, none)) ∧
    (∀ (st : RegistryState) (connId : String) (now now' : ℚ),
        (process_disconnect connId now'
          (process_disconnect connId now st).1).1 =
        (process_disconnect connId now st).1) := by
  constructor
  · intro st connId now hna
    by_cases h0 : connId = ""
    · simp [process_disconnect, h0]
    · simp [process_disconnect, h0, hna]
  · intro st connId now now'
    by_cases h0 : connId = ""
    · simp [process_disconnect, h0]
    · cases ha : st.active connId with
      | none => simp [process_disconnect, h0, ha]
      | some meta =>
        cases hl : st.userConns meta.userId with
        | none =>
          have h2 : ((process_disconnect connId now st).1).active connId = none := by
            simp [process_disconnect, h0, ha, hl]
          generalize hX : (process_disconnect connId now st).1 = X at h2 ⊢
          simp [process_disconnect, h0, h2]
        | some l =>
          by_cases hm : connId ∈ l
          · have h2 : ((process_disconnect connId now st).1).active connId = none := by
              simp [process_disconnect, h0, ha, hl, hm]
            generalize hX : (process_disconnect connId now st).1 = X at h2 ⊢
            simp [process_disconnect, h0, h2]
          · have h2 : (process_disconnect connId now st).1 = st := by
              simp [process_disconnect, h0, ha, hl, hm]
            rw [h2]
            simp [process_disconnect, h0, ha, hl, hm]

theorem c7_remove_idempotent_witness :
    process_disconnect ("c2") 5 stOne = (stOne, none) :=
  c7_remove_idempotent.1 stOne ("c2") 5 rfl

/-- Scope of an unauthenticated handshake. -/
def scopeAnon : Scope :=
  { subprotocols := [], user := none, client := ("10.0.0.1"), userAgent := ("agent") }

/-- C2 evidence: an unauthenticated handshake is closed with 4001, but every
authenticated handshake — including a user already holding 5 connections — is
closed with 4000, never 4002: `consumers.py` line 108 calls
`get_user_connections` on the class without an instance, raising `TypeError`
inside the `try`, and the `except` closes with code 4000 before the cap check
can run. -/
theorem c2_connect_close_codes :
    ArenaConsumer.connect scopeAnon = .close 4001 ∧
    ArenaConsumer.connect scopeU1 = .close 4000 ∧
    ArenaConsumer.connect scopeU1 ≠ .close 4002 := by
  refine ⟨rfl, rfl, by decide⟩

/-- Metadata of connection c1 of user u1, registered at time 0. -/
def metaC8 : ConnMeta :=
  { userId := ("u1"), correlationId := ("corr1"), connectedAt := 0,
    client := ("127.0.0.1"), userAgent := ("agent") }

/-- Registry holding exactly connection c1 of user u1, registered at time 0. -/
def stC8 : RegistryState :=
  { active := fun c => if c = ("c1") then some metaC8 else none,
    userConns := fun v => if v = ("u1") then some [("c1")] else none,
    metaTable := fun c => if c = ("c1") then some metaC8 else none }

/-- C8 evidence: at time 3602 the connection registered at time 0 is past
`CONNECTION_TIMEOUT_SECONDS + 1`; `get_user_connections` omits it from the
returned list and creates a removal coroutine for it that is never awaited (the
second component), so the connection stays in `active_connections` and the
user's count stays 1 — no removal and no decrement ever happens. -/
theorem c8_sweep_drops_coroutine :
    get_user_connections stC8 ("u1") 3602 = ([], [("c1")]) ∧
    stC8.active ("c1") = some metaC8 ∧
    ((stC8.userConns ("u1")).getD []).length = 1 := by
  refine ⟨?_, rfl, rfl⟩
  norm_num [get_user_connections, stC8, metaC8, CONNECTION_TIMEOUT_SECONDS]

lemma foldl_discard_spec (ch : String) :
    ∀ (gs : List String) (layer : ChannelLayer),
      (∀ g', (layer g').Nodup) →
      (∀ g', ((gs.foldl (fun ly g => group_discard ly g ch) layer) g').Nodup) ∧
      (∀ g, (ch ∉ layer g ∨ g ∈ gs) →
        ch ∉ (gs.foldl (fun ly g => group_discard ly g ch) layer) g) := by
  intro gs
  induction gs with
  | nil =>
    intro layer hnd
    refine ⟨hnd, ?_⟩
    intro g hg
    rcases hg with h | h
    · exact h
    · simp at h
  | cons a rest ih =>
    intro layer hnd
    have hnd1 : ∀ g', ((group_discard layer a ch) g').Nodup := by
      intro g'
      unfold group_discard
      by_cases h : g' = a
      · rw [if_pos h]
        exact (hnd a).erase ch
      · rw [if_neg h]
        exact hnd g'
    obtain ⟨ih1, ih2⟩ := ih (group_discard layer a ch) hnd1
    refine ⟨ih1, ?_⟩
    intro g hg
    apply ih2
    rcases hg with h | h
    · left
      unfold group_discard
      by_cases hga : g = a
      · rw [if_pos hga]
        intro hmem
        exact h (hga ▸ List.mem_of_mem_erase hmem)
      · rw [if_neg hga]
        exact h
    · rcases List.mem_cons.mp h with h | h
      · subst h
        left
        unfold group_discard
        rw [if_pos rfl]
        intro hmem
        exact ((List.Nodup.mem_erase_iff (hnd g)).mp hmem).1 rfl
      · right
        exact h

/-- C6: removing a registered connection — `process_disconnect` on the registry
together with `ArenaConsumer.disconnect` on the group layer — deletes the id
from `active_connections`, produces the session duration it logs, shrinks the
owner's connection list by exactly one, and leaves the consumer's channel in no
group's membership. -/
theorem c6_remove_full_cleanup (st : RegistryState) (hinv : RegistryInv st)
    (connId : String) (hid : connId ≠ (""))
    (meta : ConnMeta) (hreg : st.active connId = some meta) (now : ℚ)
    (groups : List String) (ch : String) (layer : ChannelLayer)
    (hnd : ∀ g, (layer g).Nodup)
    (hsub : ∀ g, ch ∈ layer g → g ∈ groups) :
    ((process_disconnect connId now st).1.active connId = none) ∧
    ((process_disconnect connId now st).2 = some (now - meta.connectedAt)) ∧
    (∀ l, st.userConns meta.userId = some l →
      (((process_disconnect connId now st).1.userConns meta.userId).getD []).length
        = l.length - 1) ∧
    (∀ g, ch ∉ (ArenaConsumer.disconnect groups ch layer).2 g) := by
  obtain ⟨l, hl, hmem⟩ := hinv.owner connId meta hreg
  have hnodup : l.Nodup := (hinv.cap meta.userId l hl).2.1
  have hred :
      process_disconnect connId now st =
      ({ active := fun c => if c = connId then none else st.active c,
         userConns := fun v =>
           if v = meta.userId then
             (if l.erase connId = [] then none else some (l.erase connId))
           else st.userConns v,
         metaTable := fun c => if c = connId then none else st.metaTable c },
       some (now - meta.connectedAt)) := by
    simp [process_disconnect, hid, hreg, hl, hmem]
  refine ⟨by rw [hred]; simp, by rw [hred], ?_, ?_⟩
  · intro l' hl'
    obtain rfl : l = l' := Option.some_inj.mp (hl.symm.trans hl')
    rw [hred]
    dsimp only
    rw [if_pos rfl]
    by_cases hemp : l.erase connId = []
    · rw [if_pos hemp]
      have : l.length - 1 = 0 := by
        have := List.length_erase_of_mem hmem
        rw [hemp] at this
        simp [← this]
      simp [this]
    · rw [if_neg hemp]
      simpa using (List.length_erase_of_mem hmem).symm ▸ rfl
  · intro g
    unfold ArenaConsumer.disconnect
    dsimp only
    apply (foldl_discard_spec ch groups layer hnd).2
    by_cases hg : ch ∈ layer g
    · right
      exact hsub g hg
    · left
      exact hg

/-- Channel layer with one group g1 containing the channel chan1. -/
def layerC6 : ChannelLayer := fun g => if g = ("g1") then [("chan1")] else []

theorem c6_remove_full_cleanup_witness :
    ((process_disconnect ("c1") 5 stOne).1.active ("c1") = none) ∧
    ((process_disconnect ("c1") 5 stOne).2 = some 5) ∧
    (("chan1") ∉ (ArenaConsumer.disconnect [("g1")] ("chan1") layerC6).2 ("g1")) := by
  have h := c6_remove_full_cleanup stOne
    (reachable_inv (Reachable.register initState scopeU1 ("c1") ("corr1") 0 Reachable.init rfl))
    ("c1") (by decide)
    ⟨("u1"), ("corr1"), 0, ("127.0.0.1"), ("agent")⟩ rfl 5
    [("g1")] ("chan1") layerC6
    (by
      intro g
      unfold layerC6
      by_cases hg : g = ("g1") <;> simp [hg])
    (by
      intro g hg
      unfold layerC6 at hg
      by_cases h1 : g = ("g1")
      · simp [h1]
      · simp [h1] at hg)
  exact ⟨h.1, by simpa using h.2.1, h.2.2.2 ("g1")⟩

/-! ## Message-layer claims -/

/-- A downstream service in which every proposal action succeeds. -/
def svcOk : ProposalService :=
  { accept_proposal := fun _ => .ok (), reject_proposal := fun _ => .ok () }

/-- Consumer message state with a full fresh bucket at time 0. -/
def stMsg0 : MsgState :=
  { bucket := { tokens := 60, lastRefill := 0 }, userId := ("u1"), connectTime := 0 }

/-- A well-formed `request_update` frame. -/
def frameReqUpd : PyVal2 :=
  .dict [(("type"), .prim (.pstr ("request_update"))),
         (("data"), .dict [(("request_id"), .pstr ("1"))]),
         (("message_id"), .prim (.pstr ("m1")))]

/-- Whether an outbound effect is an error frame sent to this connection. -/
def isErrorSend : Outbound → Bool
  | .sendJson d => dictGet1 d ("type") = some (.prim (.pstr ("error")))
  | .groupSend _ _ => false

/-- Evaluation of `receive_json` on a frame the validator accepts when a token
is available: the bucket is refilled and one token consumed, the message is
dispatched on its type, and the ack is appended. -/
lemma receive_json_valid (svc : ProposalService) (st : MsgState) (now : ℚ)
    (content : PyVal2) (hv : validationFailure content = none)
    (htok : 1 ≤ (st.bucket.refill now).tokens) :
    receive_json svc st now content =
      ({ st with bucket := ⟨(st.bucket.refill now).tokens - 1, now⟩ },
       dispatchMessage svc st.userId st.connectTime
           ((dictGet1 (content.asDict.getD []) ("type")).getD (.prim .pnone))
           ((dictGet1 (content.asDict.getD []) ("data")).getD (.dict []))
         ++ [.sendJson (ackFrame
              ((dictGet1 (content.asDict.getD []) ("message_id")).getD
                (.prim .pnone)))]) := by
  unfold receive_json
  rw [hv]
  unfold RateBucket.allow
  rw [if_pos htok]
  rfl

/-- Evaluation of `receive_json` on a frame the validator accepts when the
bucket is empty: the refill is recorded, and the only effect is the rate-limit
error frame sent to this connection. -/
lemma receive_json_limited (svc : ProposalService) (st : MsgState) (now : ℚ)
    (content : PyVal2) (hv : validationFailure content = none)
    (htok : ¬ 1 ≤ (st.bucket.refill now).tokens) :
    receive_json svc st now content =
      ({ st with bucket := st.bucket.refill now }, [rateLimitErrorOut]) := by
  unfold receive_json
  rw [hv]
  unfold RateBucket.allow
  rw [if_neg htok]
  rfl

/-- Refill of a full fresh bucket at its creation instant. -/
lemma stMsg0_refill : (stMsg0.bucket.refill 0).tokens = 60 := by
  norm_num [stMsg0, RateBucket.refill, RATE_CAPACITY, RATE_REFILL]

/-- C3 counterexample: the frame type `request_update` lies outside the claim's
enumerated set (subscribe, unsubscribe, action, ping), so the claim calls this
frame malformed and requires an error reply; the code instead treats it as
valid — it broadcasts the update and acks, and no error frame is sent. -/
theorem c3_counterexample :
    (("request_update") ∉ [("subscribe"), ("unsubscribe"), ("action"), ("ping")]) ∧
    (receive_json svcOk stMsg0 0 frameReqUpd).2 =
      [.groupSend ("request_updates_1")
          (requestEvent (.pstr ("1")) [(("request_id"), .pstr ("1"))] ("u1")),
       .sendJson (ackFrame (.prim (.pstr ("m1"))))] ∧
    (∀ o ∈ (receive_json svcOk stMsg0 0 frameReqUpd).2, isErrorSend o = false) := by
  have hout : (receive_json svcOk stMsg0 0 frameReqUpd).2 =
      [.groupSend ("request_updates_1")
          (requestEvent (.pstr ("1")) [(("request_id"), .pstr ("1"))] ("u1")),
       .sendJson (ackFrame (.prim (.pstr ("m1"))))] := by
    rw [receive_json_valid svcOk stMsg0 0 frameReqUpd rfl (by rw [stMsg0_refill]; norm_num)]
    rfl
  refine ⟨by decide, hout, ?_⟩
  rw [hout]
  intro o ho
  rcases List.mem_cons.mp ho with h | h
  · subst h
    rfl
  · rcases List.mem_cons.mp h with h | h
    · subst h
      rfl
    · simp at h

/-- C3 (amended): a frame the code's validator rejects — not a dict, missing
`type` or `data`, or with `type` outside the code's set (proposal_update,
request_update, ping) — yields exactly one error frame, leaves the consumer
state (bucket included) unchanged, and a later valid ping is still answered
with a pong. -/
theorem c3_malformed_frame (svc : ProposalService) (st : MsgState) (now : ℚ)
    (content : PyVal2) (msg : String)
    (hbad : validationFailure content = some msg) :
    receive_json svc st now content =
      (st, [.sendJson (errorFrame ("message_validation_error") msg)]) ∧
    (∀ (now' : ℚ) (content' : PyVal2),
      validationFailure content' = none →
      (dictGet1 (content'.asDict.getD []) ("type")).getD (.prim .pnone)
        = .prim (.pstr ("ping")) →
      1 ≤ (st.bucket.refill now').tokens →
      .sendJson (pongFrame st.connectTime) ∈
        (receive_json svc (receive_json svc st now content).1 now' content').2) := by
  have hfst : receive_json svc st now content =
      (st, [.sendJson (errorFrame ("message_validation_error") msg)]) := by
    unfold receive_json
    rw [hbad]
  refine ⟨hfst, ?_⟩
  intro now' content' hok hping htok
  rw [hfst]
  rw [receive_json_valid svc st now' content' hok htok]
  rw [hping]
  unfold dispatchMessage
  simp

theorem c3_malformed_frame_witness :
    receive_json svcOk stMsg0 0 (.dict [(("foo"), .prim (.pstr ("bar")))]) =
      (stMsg0,
       [.sendJson (errorFrame ("message_validation_error")
          ("Missing required fields"))]) :=
  (c3_malformed_frame svcOk stMsg0 0 (.dict [(("foo"), .prim (.pstr ("bar")))])
    ("Missing required fields") rfl).1

/-- A well-formed ping frame. -/
def framePing : PyVal2 :=
  .dict [(("type"), .prim (.pstr ("ping"))), (("data"), .dict []),
         (("message_id"), .prim (.pstr ("m2")))]

/-- C4 counterexample: at server time 100, a ping from a connection whose
`connect_time` is 0 is answered by a pong whose timestamp field is 0 — the
scope's connect time — and no frame carries the server time 100 at which the
reply is produced. -/
theorem c4_counterexample :
    (receive_json svcOk stMsg0 100 framePing).2 =
      [.sendJson (pongFrame 0), .sendJson (ackFrame (.prim (.pstr ("m2"))))] ∧
    (.sendJson (pongFrame 100)) ∉ (receive_json svcOk stMsg0 100 framePing).2 := by
  have htok : 1 ≤ (stMsg0.bucket.refill 100).tokens := by
    norm_num [stMsg0, RateBucket.refill, RATE_CAPACITY, RATE_REFILL]
  have hout : (receive_json svcOk stMsg0 100 framePing).2 =
      [.sendJson (pongFrame 0), .sendJson (ackFrame (.prim (.pstr ("m2"))))] := by
    rw [receive_json_valid svcOk stMsg0 100 framePing rfl htok]
    rfl
  refine ⟨hout, ?_⟩
  rw [hout]
  norm_num [pongFrame, ackFrame]

/-- C4 (amended): a valid ping frame, when a rate-limit token is available, is
answered with a pong whose timestamp is the connection's `connect_time` value
from the scope — not the current server time — followed by the ack, and the
ping consumes exactly one token. -/
theorem c4_ping_pong (svc : ProposalService) (st : MsgState) (now : ℚ)
    (content : PyVal2) (hv : validationFailure content = none)
    (hping : (dictGet1 (content.asDict.getD []) ("type")).getD (.prim .pnone)
      = .prim (.pstr ("ping")))
    (htok : 1 ≤ (st.bucket.refill now).tokens) :
    (receive_json svc st now content).2 =
      [.sendJson (pongFrame st.connectTime),
       .sendJson (ackFrame
        ((dictGet1 (content.asDict.getD []) ("message_id")).getD (.prim .pnone)))] ∧
    (receive_json svc st now content).1.bucket.tokens
      = (st.bucket.refill now).tokens - 1 := by
  rw [receive_json_valid svc st now content hv htok]
  rw [hping]
  constructor
  · unfold dispatchMessage
    simp
  · rfl

theorem c4_ping_pong_witness :
    (receive_json svcOk stMsg0 100 framePing).2 =
      [.sendJson (pongFrame 0), .sendJson (ackFrame (.prim (.pstr ("m2"))))] := by
  have htok : 1 ≤ (stMsg0.bucket.refill 100).tokens := by
    norm_num [stMsg0, RateBucket.refill, RATE_CAPACITY, RATE_REFILL]
  have h := (c4_ping_pong svcOk stMsg0 100 framePing rfl rfl htok).1
  simpa [stMsg0, framePing, PyVal2.asDict, dictGet1] using h

/-- C10: after any validated message is dispatched, `receive_json`
unconditionally appends the success ack echoing the frame's message_id; so when
the handler of the message fails and emits an error frame, the originator
receives both that error frame and the success acknowledgment. -/
theorem c10_error_then_success_ack (svc : ProposalService) (st : MsgState)
    (now : ℚ) (content : PyVal2) (eo : Outbound)
    (hv : validationFailure content = none)
    (htok : 1 ≤ (st.bucket.refill now).tokens)
    (he : eo ∈ dispatchMessage svc st.userId st.connectTime
        ((dictGet1 (content.asDict.getD []) ("type")).getD (.prim .pnone))
        ((dictGet1 (content.asDict.getD []) ("data")).getD (.dict [])))
    (herr : isErrorSend eo = true) :
    eo ∈ (receive_json svc st now content).2 ∧
    (.sendJson (ackFrame
        ((dictGet1 (content.asDict.getD []) ("message_id")).getD (.prim .pnone))))
      ∈ (receive_json svc st now content).2 := by
  rw [receive_json_valid svc st now content hv htok]
  constructor
  · exact List.mem_append.mpr (Or.inl he)
  · exact List.mem_append.mpr (Or.inr (List.mem_singleton.mpr rfl))

/-- A proposal_update frame whose data is missing the required `action`. -/
def framePropBad : PyVal2 :=
  .dict [(("type"), .prim (.pstr ("proposal_update"))),
         (("data"), .dict [(("proposal_id"), .pstr ("p1"))]),
         (("message_id"), .prim (.pstr ("m3")))]

theorem c10_error_then_success_ack_witness :
    (.sendJson (errorFrame ("proposal_update_error")
        ("Missing required proposal data")))
      ∈ (receive_json svcOk stMsg0 0 framePropBad).2 ∧
    (.sendJson (ackFrame (.prim (.pstr ("m3")))))
      ∈ (receive_json svcOk stMsg0 0 framePropBad).2 := by
  have htok : 1 ≤ (stMsg0.bucket.refill 0).tokens := by
    rw [stMsg0_refill]
    norm_num
  have h := c10_error_then_success_ack svcOk stMsg0 0 framePropBad
    (.sendJson (errorFrame ("proposal_update_error")
      ("Missing required proposal data")))
    rfl htok (List.mem_singleton.mpr rfl) rfl
  simpa [framePropBad, PyVal2.asDict, dictGet1] using h

/-- Modelled from the spec: all local deliveries produced when the bus echoes
the `group_send` publications of a handler's output back to the local
subscribers of each published group. -/
def localDeliveries (layer : ChannelLayer) (outs : List Outbound) :
    List (String × Dict1) :=
  outs.foldl
    (fun acc o =>
      match o with
      | .groupSend g e => acc ++ deliverGroupSend layer g e
      | .sendJson _ => acc) []

/-- C9: when `handle_proposal_update` succeeds it publishes exactly one event to
the proposal's group; with exactly three channels locally subscribed to that
group, exactly three local deliveries occur — one per subscribed channel — and
every delivered payload is the published event unmodified. -/
theorem c9_three_local_deliveries (svc : ProposalService) (uid : String)
    (dataV : PyVal1) (g : String) (e : Dict1) (layer : ChannelLayer)
    (ch1 ch2 ch3 : String)
    (hpub : handle_proposal_update svc uid dataV = [.groupSend g e])
    (hl : layer g = [ch1, ch2, ch3]) :
    localDeliveries layer (handle_proposal_update svc uid dataV)
      = [(ch1, e), (ch2, e), (ch3, e)] ∧
    (localDeliveries layer (handle_proposal_update svc uid dataV)).length = 3 ∧
    ∀ p ∈ localDeliveries layer (handle_proposal_update svc uid dataV),
      p.2 = e := by
  have hd : localDeliveries layer (handle_proposal_update svc uid dataV)
      = [(ch1, e), (ch2, e), (ch3, e)] := by
    rw [hpub]
    unfold localDeliveries deliverGroupSend
    rw [List.foldl_cons]
    dsimp only
    rw [hl]
    rfl
  refine ⟨hd, by rw [hd]; rfl, ?_⟩
  rw [hd]
  intro p hp
  rcases List.mem_cons.mp hp with h | hp
  · rw [h]
  · rcases List.mem_cons.mp hp with h | hp
    · rw [h]
    · rcases List.mem_cons.mp hp with h | hp
      · rw [h]
      · simp at hp

/-- Channel layer with three channels subscribed to proposal 7's group. -/
def layerC9 : ChannelLayer :=
  fun g => if g = ("proposal_updates_7") then [("ch1"), ("ch2"), ("ch3")] else []

theorem c9_three_local_deliveries_witness :
    localDeliveries layerC9
        (handle_proposal_update svcOk ("u1")
          (.dict [(("proposal_id"), .pstr ("7")), (("action"), .pstr ("accept"))]))
      = [(("ch1"), proposalEvent (.pstr ("7")) (.pstr ("accept")) ("u1")),
         (("ch2"), proposalEvent (.pstr ("7")) (.pstr ("accept")) ("u1")),
         (("ch3"), proposalEvent (.pstr ("7")) (.pstr ("accept")) ("u1"))] :=
  (c9_three_local_deliveries svcOk ("u1")
    (.dict [(("proposal_id"), .pstr ("7")), (("action"), .pstr ("accept"))])
    ("proposal_updates_7") (proposalEvent (.pstr ("7")) (.pstr ("accept")) ("u1"))
    layerC9 ("ch1") ("ch2") ("ch3") rfl rfl).1

/-! ## Rate-limit bound (C5) -/

lemma refill_tokens_le_cap (b : RateBucket) (now : ℚ) :
    (b.refill now).tokens ≤ RATE_CAPACITY := by
  unfold RateBucket.refill
  exact min_le_left _ _

lemma refill_tokens_le_add (b : RateBucket) (now : ℚ) :
    (b.refill now).tokens ≤ b.tokens + (now - b.lastRefill) := by
  unfold RateBucket.refill RATE_REFILL
  dsimp only
  rw [mul_one]
  exact min_le_right _ _

lemma le_refill_tokens (b : RateBucket) (now : ℚ) (h : b.lastRefill ≤ now)
    (hcap : b.tokens ≤ RATE_CAPACITY) : b.tokens ≤ (b.refill now).tokens := by
  unfold RateBucket.refill RATE_REFILL
  dsimp only
  rw [mul_one]
  exact le_min hcap (by linarith)

lemma refill_tokens_nonneg (b : RateBucket) (now : ℚ) (h0 : 0 ≤ b.tokens)
    (h : b.lastRefill ≤ now) : 0 ≤ (b.refill now).tokens := by
  unfold RateBucket.refill RATE_REFILL RATE_CAPACITY
  dsimp only
  rw [mul_one]
  exact le_min (by norm_num) (by linarith)

lemma rateErr_not_in_proposal (svc : ProposalService) (uid : String)
    (dataV : PyVal1) :
    rateLimitErrorOut ∉ handle_proposal_update svc uid dataV := by
  unfold handle_proposal_update
  cases dataV with
  | prim v => simp [rateLimitErrorOut, errorFrame]
  | dict d =>
    dsimp only
    by_cases h1 : truthy0 ((dictGet0 d ("proposal_id")).getD .pnone) = false ∨
        truthy0 ((dictGet0 d ("action")).getD .pnone) = false
    · rw [if_pos h1]
      simp [rateLimitErrorOut, errorFrame]
    · rw [if_neg h1]
      by_cases h2 : (dictGet0 d ("action")).getD .pnone = .pstr ("accept")
      · rw [if_pos h2]
        cases hs : svc.accept_proposal ((dictGet0 d ("proposal_id")).getD .pnone) with
        | ok _ => simp [rateLimitErrorOut]
        | error e => simp [rateLimitErrorOut, errorFrame]
      · rw [if_neg h2]
        by_cases h3 : (dictGet0 d ("action")).getD .pnone = .pstr ("reject")
        · rw [if_pos h3]
          cases hs : svc.reject_proposal ((dictGet0 d ("proposal_id")).getD .pnone) with
          | ok _ => simp [rateLimitErrorOut]
          | error e => simp [rateLimitErrorOut, errorFrame]
        · rw [if_neg h3]
          simp [rateLimitErrorOut, errorFrame]

lemma rateErr_not_in_request (uid : String) (dataV : PyVal1) :
    rateLimitErrorOut ∉ handle_request_update uid dataV := by
  unfold handle_request_update
  cases dataV with
  | prim v => simp [rateLimitErrorOut, errorFrame]
  | dict d =>
    dsimp only
    by_cases h1 : truthy0 ((dictGet0 d ("request_id")).getD .pnone) = false
    · rw [if_pos h1]
      simp [rateLimitErrorOut, errorFrame]
    · rw [if_neg h1]
      simp [rateLimitErrorOut]

lemma rateErr_not_in_dispatch (svc : ProposalService) (uid : String) (ct : ℚ)
    (t dataV : PyVal1) :
    rateLimitErrorOut ∉ dispatchMessage svc uid ct t dataV := by
  unfold dispatchMessage
  by_cases h1 : t = .prim (.pstr ("proposal_update"))
  · rw [if_pos h1]
    exact rateErr_not_in_proposal svc uid dataV
  · rw [if_neg h1]
    by_cases h2 : t = .prim (.pstr ("request_update"))
    · rw [if_pos h2]
      exact rateErr_not_in_request uid dataV
    · rw [if_neg h2]
      by_cases h3 : t = .prim (.pstr ("ping"))
      · rw [if_pos h3]
        simp [rateLimitErrorOut, errorFrame, pongFrame]
      · rw [if_neg h3]
        simp

lemma rateErr_ne_ack (mid : PyVal1) :
    rateLimitErrorOut ≠ .sendJson (ackFrame mid) := by
  simp [rateLimitErrorOut, errorFrame, ackFrame]

lemma getLastD_mem_of_ne_nil : ∀ (l : List ℚ) (d : ℚ), l ≠ [] → l.getLastD d ∈ l
  | [], _, h => absurd rfl h
  | [a], _, _ => by simp [List.getLastD]
  | a :: b :: rest, d, _ => by
    rw [List.getLastD_cons]
    exact List.mem_cons_of_mem a (getLastD_mem_of_ne_nil (b :: rest) a (by simp))

/-- Running a batch of valid messages within the bucket's budget: when the batch
is no longer than the available tokens, every message passes the limiter (no
rate-limit error anywhere), and the final bucket is bounded by the tokens spent
minus those refilled over the elapsed window. -/
lemma run_under_capacity (svc : ProposalService) :
    ∀ (msgs : List (ℚ × PyVal2)) (st : MsgState),
      (∀ p ∈ msgs, validationFailure p.2 = none) →
      ((msgs.map Prod.fst).Pairwise (fun a b => a ≤ b)) →
      (∀ p ∈ msgs, st.bucket.lastRefill ≤ p.1) →
      ((msgs.length : ℚ) ≤ st.bucket.tokens) →
      (st.bucket.tokens ≤ RATE_CAPACITY) →
      (∀ outs ∈ (runMessages svc st msgs).2, rateLimitErrorOut ∉ outs) ∧
      ((runMessages svc st msgs).1.bucket.tokens ≤
        st.bucket.tokens - msgs.length +
          ((msgs.map Prod.fst).getLastD st.bucket.lastRefill
            - st.bucket.lastRefill)) ∧
      (0 ≤ (runMessages svc st msgs).1.bucket.tokens) ∧
      ((runMessages svc st msgs).1.bucket.lastRefill =
        (msgs.map Prod.fst).getLastD st.bucket.lastRefill) := by
  intro msgs
  induction msgs with
  | nil =>
    intro st hval hpair hlast hcount hcap
    refine ⟨?_, ?_, ?_, ?_⟩
    · intro outs houts
      simp [runMessages] at houts
    · simp [runMessages, List.getLastD]
    · simpa [runMessages] using hcount
    · simp [runMessages, List.getLastD]
  | cons hd rest ih =>
    obtain ⟨t, c⟩ := hd
    intro st hval hpair hlast hcount hcap
    have hv : validationFailure c = none := hval (t, c) (List.mem_cons_self _ _)
    have hlt : st.bucket.lastRefill ≤ t := hlast (t, c) (List.mem_cons_self _ _)
    have hcount' : (rest.length : ℚ) + 1 ≤ st.bucket.tokens := by
      have h := hcount
      rw [List.length_cons] at h
      push_cast at h
      linarith
    have hone : (1 : ℚ) ≤ st.bucket.tokens := by
      have hnn : (0 : ℚ) ≤ (rest.length : ℚ) := by positivity
      linarith
    have htok : 1 ≤ (st.bucket.refill t).tokens :=
      le_trans hone (le_refill_tokens st.bucket t hlt hcap)
    have hstep := receive_json_valid svc st t c hv htok
    rw [List.map_cons] at hpair
    dsimp only at hpair
    obtain ⟨hhead, htail⟩ := List.pairwise_cons.mp hpair
    obtain ⟨ih1, ih2, ih3, ih4⟩ :=
      ih { st with bucket := ⟨(st.bucket.refill t).tokens - 1, t⟩ }
        (fun p hp => hval p (List.mem_cons_of_mem _ hp))
        htail
        (fun p hp => hhead p.1 (List.mem_map_of_mem Prod.fst hp))
        (by
          dsimp only
          have := le_refill_tokens st.bucket t hlt hcap
          linarith)
        (by
          dsimp only
          have := refill_tokens_le_cap st.bucket t
          linarith)
    dsimp only at ih1 ih2 ih3 ih4
    simp only [runMessages]
    rw [hstep]
    dsimp only
    refine ⟨?_, ?_, ?_, ?_⟩
    · intro outs houts
      rcases List.mem_cons.mp houts with h | h
      · rw [h]
        intro hmem
        rcases List.mem_append.mp hmem with h2 | h2
        · exact rateErr_not_in_dispatch svc st.userId st.connectTime _ _ h2
        · exact rateErr_ne_ack _ (List.mem_singleton.mp h2)
      · exact ih1 outs h
    · rw [List.map_cons, List.getLastD_cons, List.length_cons]
      dsimp only
      have hadd := refill_tokens_le_add st.bucket t
      push_cast
      linarith
    · exact ih3
    · rw [List.map_cons, List.getLastD_cons]
      exact ih4

lemma refill_lastRefill (b : RateBucket) (now : ℚ) :
    (b.refill now).lastRefill = now := rfl

lemma one_le_refill_after (b : RateBucket) (now : ℚ) (h0 : 0 ≤ b.tokens)
    (h : b.lastRefill + 1 ≤ now) : 1 ≤ (b.refill now).tokens := by
  unfold RateBucket.refill RATE_REFILL RATE_CAPACITY
  dsimp only
  rw [mul_one]
  exact le_min (by norm_num) (by linarith)

/-- C5: with the spec-modelled token bucket of `MESSAGE_RATE_LIMIT` (capacity
60, refill 1 token/second), a connection whose bucket is full at the time of
its first message and which sends 60 valid messages followed by a 61st, all
within one second, has the first 60 processed with no rate-limit error anywhere,
while the 61st is answered by exactly the rate-limit error frame — sent only to
that connection, with no broadcast, no dispatch and no ack, hence nothing queued
or retried; retrying the same frame two seconds later is accepted. -/
theorem c5_rate_limit (svc : ProposalService) (st : MsgState)
    (msgs : List (ℚ × PyVal2)) (tL : ℚ) (cL : PyVal2)
    (hlen : msgs.length = 60)
    (hval : ∀ p ∈ msgs, validationFailure p.2 = none)
    (hvL : validationFailure cL = none)
    (hpair : ((msgs ++ [(tL, cL)]).map Prod.fst).Pairwise (fun a b => a ≤ b))
    (hfull : st.bucket.tokens = 60)
    (hstart : ∀ p ∈ msgs, st.bucket.lastRefill ≤ p.1)
    (hwin : tL < st.bucket.lastRefill + 1) :
    (∀ outs ∈ (runMessages svc st msgs).2, rateLimitErrorOut ∉ outs) ∧
    ((receive_json svc (runMessages svc st msgs).1 tL cL).2
      = [rateLimitErrorOut]) ∧
    (rateLimitErrorOut ∉
      (receive_json svc
        (receive_json svc (runMessages svc st msgs).1 tL cL).1
        (tL + 2) cL).2) := by
  rw [List.map_append] at hpair
  simp only [List.map_cons, List.map_nil] at hpair
  obtain ⟨hp1, _hp2, hp3⟩ := List.pairwise_append.mp hpair
  obtain ⟨hr1, hr2, hr3, hr4⟩ :=
    run_under_capacity svc msgs st hval hp1 hstart
      (by rw [hlen, hfull]; norm_num)
      (by rw [hfull]; norm_num [RATE_CAPACITY])
  rw [hlen, hfull] at hr2
  push_cast at hr2
  have hne : msgs.map Prod.fst ≠ [] := by
    intro h
    have h2 := congrArg List.length h
    rw [List.length_map, hlen] at h2
    simp at h2
  have htLD : (msgs.map Prod.fst).getLastD st.bucket.lastRefill ≤ tL := by
    have := hp3 _ (getLastD_mem_of_ne_nil _ st.bucket.lastRefill hne) tL
      (List.mem_singleton.mpr rfl)
    simpa using this
  have htokL : ¬ 1 ≤ ((runMessages svc st msgs).1.bucket.refill tL).tokens := by
    intro h
    have hb := refill_tokens_le_add (runMessages svc st msgs).1.bucket tL
    rw [hr4] at hb
    linarith
  have h61 := receive_json_limited svc (runMessages svc st msgs).1 tL cL hvL htokL
  refine ⟨hr1, by rw [h61], ?_⟩
  rw [h61]
  dsimp only
  have h0r : 0 ≤ ((runMessages svc st msgs).1.bucket.refill tL).tokens := by
    apply refill_tokens_nonneg _ _ hr3
    rw [hr4]
    exact htLD
  have htok2 : 1 ≤
      ((({ (runMessages svc st msgs).1 with
          bucket := (runMessages svc st msgs).1.bucket.refill tL } : MsgState).bucket.refill
        (tL + 2)).tokens) := by
    apply one_le_refill_after _ _ h0r
    rw [refill_lastRefill]
    linarith
  rw [receive_json_valid svc
    { (runMessages svc st msgs).1 with
        bucket := (runMessages svc st msgs).1.bucket.refill tL }
    (tL + 2) cL hvL htok2]
  dsimp only
  intro hmem
  rcases List.mem_append.mp hmem with h2 | h2
  · exact rateErr_not_in_dispatch svc _ _ _ _ h2
  · exact rateErr_ne_ack _ (List.mem_singleton.mp h2)

/-- Sixty ping frames all received at time 0. -/
def msgsC5 : List (ℚ × PyVal2) := List.replicate 60 ((0 : ℚ), framePing)

lemma pairwise_le_replicate_zero (n : ℕ) :
    (List.replicate n (0 : ℚ)).Pairwise (fun a b => a ≤ b) := by
  induction n with
  | zero => simp
  | succ k ih =>
    rw [List.replicate_succ]
    refine List.pairwise_cons.mpr ⟨?_, ih⟩
    intro b hb
    rw [List.eq_of_mem_replicate hb]

theorem c5_rate_limit_witness :
    (receive_json svcOk (runMessages svcOk stMsg0 msgsC5).1 (1/2) framePing).2
      = [rateLimitErrorOut] := by
  have h := c5_rate_limit svcOk stMsg0 msgsC5 (1/2) framePing
    (by simp [msgsC5])
    (by
      intro p hp
      rw [List.eq_of_mem_replicate hp]
      rfl)
    rfl
    (by
      rw [List.map_append]
      simp only [List.map_cons, List.map_nil]
      apply List.pairwise_append.mpr
      have hrep : msgsC5.map Prod.fst = List.replicate 60 (0 : ℚ) := by
        simp [msgsC5, List.map_replicate]
      refine ⟨?_, ?_, ?_⟩
      · rw [hrep]
        exact pairwise_le_replicate_zero 60
      · simp
      · intro a ha b hb
        rw [hrep] at ha
        rw [List.eq_of_mem_replicate ha]
        simp only [List.mem_singleton] at hb
        rw [hb]
        norm_num)
    rfl
    (by
      intro p hp
      rw [List.eq_of_mem_replicate hp]
      norm_num [stMsg0])
    (by norm_num [stMsg0])
  exact h.2.1

end ArenaRealtime
